import Mathlib

/-!
Verification of the webhook-retry-backend delivery engine.

The repository is a TypeScript webhook buffering / retry service.  We give a
shallow embedding of its core pure logic and state-passing operations:

* the dispatcher's fatal / transient failure classification
  (`src/workers/worker.ts` and the second worker revision),
* the Stripe-style signature verifier
  (`src/infrastructure/verifiers/StripeVerifier.ts`),
* the ingestion pipeline (`src/core/services/IngestionService.ts`) and the
  HTTP routes that drive it (`src/api/server.ts`),
* the traffic smoother, the pause/resume controller, the retention archiver
  (`CleanupService`), the queue policy (`QueueService`) and the verifier
  factory (`VerifierFactory`).

Strings of the source are modelled as `List Char` so that the JavaScript
string operations used by the code (`split`, `startsWith`, `parseInt`,
object-key lookup and spread) can be given exact executable counterparts.
-/

/-- JavaScript strings are modelled as lists of characters. -/
abbrev JStr := List Char

/-- The character list of a Lean string literal. -/
def jstr (s : String) : JStr := s.toList

/-! ## Dispatcher failure classification

From `src/workers/worker.ts` (`catch` block) and the second worker revision.
`error.response ? error.response.status : 500` is modelled by an
`Option Nat` response: `none` is a network-level failure with no response. -/

/-- Event lifecycle states, from the Prisma schema used throughout the code. -/
inductive EventStatus where
  | PENDING
  | PROCESSING
  | COMPLETED
  | FAILED
  | PAUSED
deriving DecidableEq, Repr

/-- Fatal-error test of the second worker revision:
`(status >= 400 && status < 500) && status !== 429 && status !== 408`. -/
def isFatalError (status : Nat) : Bool :=
  (400 ≤ status && status < 500) && status != 429 && status != 408

/-- Fatal-error test of `src/workers/worker.ts`, which additionally retries
404: `... && status !== 429 && status !== 408 && status !== 404`. -/
def isFatalError_v1 (status : Nat) : Bool :=
  (400 ≤ status && status < 500) && status != 429 && status != 408
    && status != 404

/-- What the dispatcher's `catch` block does with a failed attempt. -/
structure FailureHandling where
  /-- a Delivery Attempt row is appended (via the batch logger) -/
  attemptLogged : Bool
  /-- `success` flag of the appended Delivery Attempt -/
  attemptSuccess : Bool
  /-- `some FAILED` when the event row is finalized, `none` when untouched -/
  newStatus : Option EventStatus
  /-- whether the error is re-thrown so the queue reschedules the item -/
  rethrown : Bool
deriving DecidableEq, Repr

/-- The dispatcher's `catch` block (second worker revision): derive the
status (`500` when there is no response), then either fail permanently or
log and re-throw for the queue's retry mechanism. -/
def handleFailure (response : Option Nat) : FailureHandling :=
  let status := match response with
    | some s => s
    | none => 500
  if isFatalError status then
    { attemptLogged := true, attemptSuccess := false
      newStatus := some EventStatus.FAILED, rethrown := false }
  else
    { attemptLogged := true, attemptSuccess := false
      newStatus := none, rethrown := true }

/-- Same `catch` block in the `src/workers/worker.ts` revision (it differs
only in the fatal-error test). -/
def handleFailure_v1 (response : Option Nat) : FailureHandling :=
  let status := match response with
    | some s => s
    | none => 500
  if isFatalError_v1 status then
    { attemptLogged := true, attemptSuccess := false
      newStatus := some EventStatus.FAILED, rethrown := false }
  else
    { attemptLogged := true, attemptSuccess := false
      newStatus := none, rethrown := true }

/-- Result of a fatal classification: failed attempt appended, event set
FAILED, not rescheduled. -/
def fatalOutcome : FailureHandling :=
  { attemptLogged := true, attemptSuccess := false
    newStatus := some EventStatus.FAILED, rethrown := false }

/-- Result of a transient classification: failed attempt appended, event
status untouched, error re-thrown so the queue reschedules. -/
def transientOutcome : FailureHandling :=
  { attemptLogged := true, attemptSuccess := false
    newStatus := none, rethrown := true }

/-- C1: response codes 400, 401, 403, 422 are handled as fatal (failed
attempt appended, event FAILED, no reschedule) and codes 429, 408, 500,
502, 503 as well as a network-level failure with no response are handled
as transient (failed attempt appended, re-thrown for rescheduling), in
both worker revisions. -/
theorem c1_fatal_transient_classification :
    (handleFailure (some 400) = fatalOutcome ∧
     handleFailure (some 401) = fatalOutcome ∧
     handleFailure (some 403) = fatalOutcome ∧
     handleFailure (some 422) = fatalOutcome ∧
     handleFailure (some 429) = transientOutcome ∧
     handleFailure (some 408) = transientOutcome ∧
     handleFailure (some 500) = transientOutcome ∧
     handleFailure (some 502) = transientOutcome ∧
     handleFailure (some 503) = transientOutcome ∧
     handleFailure none = transientOutcome) ∧
    (handleFailure_v1 (some 400) = fatalOutcome ∧
     handleFailure_v1 (some 401) = fatalOutcome ∧
     handleFailure_v1 (some 403) = fatalOutcome ∧
     handleFailure_v1 (some 422) = fatalOutcome ∧
     handleFailure_v1 (some 429) = transientOutcome ∧
     handleFailure_v1 (some 408) = transientOutcome ∧
     handleFailure_v1 (some 500) = transientOutcome ∧
     handleFailure_v1 (some 502) = transientOutcome ∧
     handleFailure_v1 (some 503) = transientOutcome ∧
     handleFailure_v1 none = transientOutcome) := by
  decide

/-! ## Traffic smoother

Second worker revision:
`windowIndex = Math.floor((currentCount - 1) / limit)`; if positive, sleep
`windowIndex * 1000` milliseconds.  `currentCount` is the value of the
atomic Redis `INCR`, so it is at least 1 on every admission.
`src/workers/worker.ts` instead sleeps a flat 1000 ms whenever
`currentCount > limit`. -/

/-- window index of the second worker revision
(`Math.floor((currentCount - 1) / limit)`; arguments are positive in the
code, and Nat subtraction/division agree with `Math.floor` there). -/
def windowIndex (currentCount limit : Nat) : Nat :=
  (currentCount - 1) / limit

/-- Delay in milliseconds imposed before an attempt, second worker
revision: `windowIndex * 1000` when `windowIndex > 0`, else none. -/
def smootherDelayMs (currentCount limit : Nat) : Nat :=
  let wi := windowIndex currentCount limit
  if wi > 0 then wi * 1000 else 0

/-- Delay in milliseconds imposed before an attempt in
`src/workers/worker.ts`: a flat 1000 ms pause once `currentCount > limit`. -/
def smootherDelayMs_v1 (currentCount limit : Nat) : Nat :=
  if currentCount > limit then 1000 else 0

/-- The window duration used by the smoothing delay (1000 ms per window
batch in the second worker revision). -/
def windowDurationMs : Nat := 1000

/-- C5 counterexample: in the `src/workers/worker.ts` revision the delay of
the 11th admission with limit 5 is the flat 1000 ms, not
`windowIndex × windowDuration = 2000` ms as the claim states. -/
theorem c5_counterexample_flat_delay_worker_v1 :
    smootherDelayMs_v1 11 5 = 1000 ∧
    windowIndex 11 5 * windowDurationMs = 2000 ∧
    smootherDelayMs_v1 11 5 ≠ windowIndex 11 5 * windowDurationMs := by
  decide

/-- C5 (amended to the second worker revision, the one that implements the
`windowIndex` policy): the delay before the k-th admission in one window
equals `windowIndex × windowDuration` with
`windowIndex = floor((k − 1) / limit)`; with limit 5, admissions 1–5 wait
0 ms, 6–10 wait one window (1000 ms), 11–12 wait two windows (2000 ms). -/
theorem c5_smoother_windowIndex_delay :
    (∀ k limit : Nat, smootherDelayMs k limit
        = windowIndex k limit * windowDurationMs) ∧
    (∀ k : Nat, 1 ≤ k → k ≤ 5 → smootherDelayMs k 5 = 0) ∧
    (∀ k : Nat, 6 ≤ k → k ≤ 10 → smootherDelayMs k 5 = 1000) ∧
    (∀ k : Nat, 11 ≤ k → k ≤ 12 → smootherDelayMs k 5 = 2000) := by
  refine ⟨?_, ?_, ?_, ?_⟩
  · intro k limit
    simp only [smootherDelayMs, windowDurationMs]
    by_cases h : windowIndex k limit > 0
    · simp [h]
    · simp [h, Nat.eq_zero_of_not_pos h]
  · intro k h1 h2; interval_cases k <;> decide
  · intro k h1 h2; interval_cases k <;> decide
  · intro k h1 h2; interval_cases k <;> decide

/-- C5 witness: the amended theorem evaluated at concrete admissions. -/
theorem c5_smoother_witness :
    smootherDelayMs 3 5 = windowIndex 3 5 * windowDurationMs ∧
    smootherDelayMs 3 5 = 0 ∧
    smootherDelayMs 7 5 = 1000 ∧
    smootherDelayMs 12 5 = 2000 :=
  ⟨c5_smoother_windowIndex_delay.1 3 5,
   c5_smoother_windowIndex_delay.2.1 3 (by decide) (by decide),
   c5_smoother_windowIndex_delay.2.2.1 7 (by decide) (by decide),
   c5_smoother_windowIndex_delay.2.2.2 12 (by decide) (by decide)⟩

/-! ## Queue retry policy

From `src/infrastructure/queue/QueueService.ts` (`addJob` and
`addJobsBulk` options) and the delay computation logged by the worker
(`nextDelayMs = 5000 * Math.pow(2, job.attemptsMade)`). -/

/-- Backoff options handed to the queue (`backoff: { type: 'exponential',
delay: 5000 }`). -/
structure BackoffOpts where
  exponential : Bool
  delay : Nat
deriving DecidableEq, Repr

/-- Per-job options handed to the queue. -/
structure JobOpts where
  attempts : Nat
  backoff : BackoffOpts
deriving DecidableEq, Repr

/-- Options used by `QueueService.addJob`. -/
def addJobOpts : JobOpts :=
  { attempts := 18, backoff := { exponential := true, delay := 5000 } }

/-- Options used by `QueueService.addJobsBulk` for each bulk entry. -/
def addJobsBulkOpts : JobOpts :=
  { attempts := 18, backoff := { exponential := true, delay := 5000 } }

/-- Delay before the next retry as computed in the worker
(`5000 * Math.pow(2, job.attemptsMade)`), `n` being the number of attempts
already made. -/
def nextDelayMs (n : Nat) : Nat := 5000 * 2 ^ n

/-- C7: the Nth retry delay is `baseDelay × 2^N` with base delay 5000 ms
(the queue's configured backoff base), the delay sequence is strictly
monotonically increasing, and both enqueue paths bound retries at 18
attempts. -/
theorem c7_exponential_backoff :
    (∀ n : Nat, nextDelayMs n = addJobOpts.backoff.delay * 2 ^ n) ∧
    (∀ m n : Nat, m < n → nextDelayMs m < nextDelayMs n) ∧
    addJobOpts.attempts = 18 ∧ addJobsBulkOpts.attempts = 18 ∧
    addJobOpts.backoff.exponential = true ∧
    addJobsBulkOpts.backoff.exponential = true := by
  refine ⟨fun n => rfl, ?_, rfl, rfl, rfl, rfl⟩
  intro m n h
  have h2 : (2 : Nat) ^ m < 2 ^ n := Nat.pow_lt_pow_right (by norm_num) h
  simpa [nextDelayMs] using (Nat.mul_lt_mul_left (by norm_num : 0 < 5000)).mpr h2

/-- C7 witness: concrete delays 5000, 10000, 20000 for attempts 0, 1, 2. -/
theorem c7_backoff_witness :
    nextDelayMs 1 = addJobOpts.backoff.delay * 2 ^ 1 ∧
    nextDelayMs 1 < nextDelayMs 2 :=
  ⟨c7_exponential_backoff.1 1, c7_exponential_backoff.2.1 1 2 (by decide)⟩

/-! ## JavaScript string primitives

Exact executable counterparts of the JavaScript operations used by
`StripeVerifier.verify`: `String.prototype.split` on a one-character
separator, `String.prototype.startsWith`, indexing a split result, and
`parseInt(s, 10)` (where `none` plays the role of `NaN`). -/

/-- `s.split(sep)` of JavaScript for a one-character separator.
`"".split(sep)` is `[""]`, and separators at the ends produce empty
fields, exactly as in JavaScript. -/
def jsSplit (sep : Char) : JStr → List JStr
  | [] => [[]]
  | c :: cs =>
    match jsSplit sep cs with
    | [] => [[]]
    | h :: t => if c = sep then [] :: h :: t else (c :: h) :: t

/-- `s.startsWith(p)` of JavaScript. -/
def jsStartsWith : JStr → JStr → Bool
  | _, [] => true
  | [], _ :: _ => false
  | c :: cs, p :: ps => c == p && jsStartsWith cs ps

/-- `part.split('=')[1]` as used by the verifier; the fallback is
unreachable for parts that matched `startsWith("t=")` / `startsWith("v1=")`. -/
def fieldValue (part : JStr) : JStr :=
  ((jsSplit '=' part).get? 1).getD []

/-- Value of a maximal digit prefix, most significant digit first. -/
def digitsToNat (ds : JStr) : Nat :=
  ds.foldl (fun n c => n * 10 + (c.toNat - 48)) 0

/-- Longest digit prefix of `parseInt`, `none` when there is no digit. -/
def parseDigits (u : JStr) : Option Nat :=
  let ds := u.takeWhile (fun c => c.isDigit)
  if ds = [] then none else some (digitsToNat ds)

/-- `parseInt(s, 10)` of JavaScript: skip leading whitespace, read an
optional sign and then the longest digit prefix; `none` models `NaN`. -/
def parseIntJS (s : JStr) : Option Int :=
  match s.dropWhile (fun c => c.isWhitespace) with
  | [] => none
  | c :: rest =>
    if c = '-' then (parseDigits rest).map (fun n => -(n : Int))
    else if c = '+' then (parseDigits rest).map (fun n => (n : Int))
    else (parseDigits (c :: rest)).map (fun n => (n : Int))

/-- `headers[key]`: the request-header object is modelled as a key/value
list without duplicate keys (JavaScript object semantics). -/
def headerLookup (hs : List (JStr × JStr)) (k : JStr) : Option JStr :=
  (hs.find? (fun p => p.1 == k)).map (fun p => p.2)

/-- `crypto.timingSafeEqual(Buffer.from(a), Buffer.from(b))` wrapped in the
verifier's `try/catch`: a byte-length mismatch throws and is caught to
`false`, otherwise the buffers are compared bytewise.  UTF-8 encoding is
injective, so the net result is equality of the two strings. -/
def timingSafeEqualCaught (a b : JStr) : Bool :=
  if a.length = b.length then a == b else false

/-! ## Stripe signature verifier

From `src/infrastructure/verifiers/StripeVerifier.ts`.  The HMAC-SHA256 of
the `crypto` module is an external library primitive; it enters the model
as an explicit function argument `hmac : secret → message → hexDigest`. -/

/-- Replay tolerance of the verifier (`const TOLERANCE = 300`), seconds. -/
def TOLERANCE : Int := 300

/-- The verifier `StripeVerifier.verify`.  `now` is `Date.now()/1000`
rounded down; `rawBody` is the raw request body.  The payload argument of
the TypeScript method is unused by the method body and omitted here at the
call sites that need it explicitly pass it through `getVerifier`. -/
def stripeVerify (hmac : JStr → JStr → JStr) (now : Int)
    (headers : List (JStr × JStr)) (secret : JStr) (rawBody : JStr) : Bool :=
  match headerLookup headers (jstr "stripe-signature") with
  | none => false
  | some signatureHeader =>
    let parts := jsSplit ',' signatureHeader
    match parts.find? (fun p => jsStartsWith p (jstr "t=")),
          parts.find? (fun p => jsStartsWith p (jstr "v1=")) with
    | some timestampPart, some signaturePart =>
      let timestamp := fieldValue timestampPart
      let signature := fieldValue signaturePart
      let tolReject :=
        match parseIntJS timestamp with
        | none => false
        | some t => decide (now - t > TOLERANCE)
      if tolReject then false
      else
        let signedPayload := timestamp ++ jstr "." ++ rawBody
        let calculatedSignature := hmac secret signedPayload
        timingSafeEqualCaught signature calculatedSignature
    | _, _ => false

/-! ### Facts about the JavaScript string primitives -/

theorem jsSplit_ne_nil (sep : Char) (s : JStr) : jsSplit sep s ≠ [] := by
  induction s with
  | nil => simp [jsSplit]
  | cons c cs ih =>
    simp only [jsSplit]
    cases h : jsSplit sep cs with
    | nil => simp
    | cons hd tl => by_cases hc : c = sep <;> simp [hc]

theorem jsSplit_no_sep {sep : Char} {s : JStr} (h : sep ∉ s) :
    jsSplit sep s = [s] := by
  induction s with
  | nil => rfl
  | cons c cs ih =>
    have hc : ¬ (c = sep) := fun e => h (by simp [e])
    have hcs : sep ∉ cs := fun m => h (List.mem_cons_of_mem _ m)
    simp only [jsSplit, ih hcs]
    simp [hc]

theorem jsSplit_append {sep : Char} {a : JStr} (b : JStr) (h : sep ∉ a) :
    jsSplit sep (a ++ sep :: b) = a :: jsSplit sep b := by
  induction a with
  | nil =>
    obtain ⟨hd, tl, e⟩ := List.exists_cons_of_ne_nil (jsSplit_ne_nil sep b)
    simp only [List.nil_append, jsSplit, e]
    simp
  | cons c a' ih =>
    have hc : ¬ (c = sep) := fun e => h (by simp [e])
    have ha' : sep ∉ a' := fun m => h (List.mem_cons_of_mem _ m)
    simp only [List.cons_append, jsSplit, List.append_eq]
    rw [ih ha']
    simp [hc]

theorem jsStartsWith_append (p r : JStr) : jsStartsWith (p ++ r) p = true := by
  induction p with
  | nil => cases r <;> rfl
  | cons c p' ih => simp [jsStartsWith, ih]

theorem digit_ne {c x : Char} (hc : c.isDigit = true)
    (hx : x.isDigit = false) : ¬ (c = x) := by
  intro e
  rw [e, hx] at hc
  exact Bool.noConfusion hc

theorem not_mem_digits {x : Char} {l : JStr} (hx : x.isDigit = false)
    (h : ∀ c ∈ l, c.isDigit = true) : x ∉ l := by
  intro m
  have hm := h x m
  rw [hx] at hm
  exact Bool.noConfusion hm

theorem digit_not_whitespace {c : Char} (hc : c.isDigit = true) :
    c.isWhitespace = false := by
  cases hw : c.isWhitespace
  · rfl
  · have h2 : ((c = ' ' ∨ c = '\t') ∨ c = '\r') ∨ c = '\n' := by
      simpa [Char.isWhitespace] using hw
    rcases h2 with ((h2 | h2) | h2) | h2 <;> subst h2 <;>
      exact absurd hc (by decide)

theorem takeWhile_all {p : Char → Bool} {l : JStr}
    (h : ∀ c ∈ l, p c = true) : l.takeWhile p = l := by
  induction l with
  | nil => rfl
  | cons c cs ih =>
    have hc := h c (by simp)
    have hcs := ih (fun x hx => h x (by simp [hx]))
    simp [List.takeWhile_cons, hc, hcs]

theorem parseIntJS_digits {ts : JStr} (h1 : ts ≠ [])
    (h2 : ∀ c ∈ ts, c.isDigit = true) :
    parseIntJS ts = some ((digitsToNat ts : Nat) : Int) := by
  cases ts with
  | nil => exact absurd rfl h1
  | cons c rest =>
    have hc : c.isDigit = true := h2 c (by simp)
    have hdw : (c :: rest).dropWhile (fun c => c.isWhitespace) = c :: rest := by
      simp [List.dropWhile_cons, digit_not_whitespace hc]
    have hminus : ¬ (c = '-') := digit_ne hc (by decide)
    have hplus : ¬ (c = '+') := digit_ne hc (by decide)
    simp only [parseIntJS, hdw, if_neg hminus, if_neg hplus]
    have htw : (c :: rest).takeWhile (fun c => c.isDigit) = c :: rest :=
      takeWhile_all h2
    simp [parseDigits, htw]

theorem timingSafeEqualCaught_eq_beq (a b : JStr) :
    timingSafeEqualCaught a b = (a == b) := by
  by_cases h : a.length = b.length
  · simp [timingSafeEqualCaught, h]
  · have hb : (a == b) = false := by
      rw [beq_eq_false_iff_ne]
      intro e
      exact h (by rw [e])
    simp [timingSafeEqualCaught, h, hb]

/-- Evaluation of `StripeVerifier.verify` on a well-formed
`t={ts},v1={sig}` header: the timestamp and signature fields are recovered
exactly, and the result is the tolerance gate followed by the constant-time
comparison with the recomputed HMAC. -/
theorem stripeVerify_parsed (hmac : JStr → JStr → JStr) (now : Int)
    (hs : List (JStr × JStr)) (secret rawBody ts sig : JStr)
    (hlook : headerLookup hs (jstr "stripe-signature")
        = some (jstr "t=" ++ ts ++ [','] ++ jstr "v1=" ++ sig))
    (hts1 : ts ≠ []) (hts2 : ∀ c ∈ ts, c.isDigit = true)
    (hsig1 : ',' ∉ sig) (hsig2 : '=' ∉ sig) :
    stripeVerify hmac now hs secret rawBody
      = if now - (digitsToNat ts : Int) > TOLERANCE then false
        else (sig == hmac secret (ts ++ jstr "." ++ rawBody)) := by
  have hts_comma : ',' ∉ ts := not_mem_digits (by decide) hts2
  have hts_eq : '=' ∉ ts := not_mem_digits (by decide) hts2
  have hnc1 : ',' ∉ jstr "t=" ++ ts := by
    intro m
    rcases List.mem_append.mp m with m | m
    · revert m; decide
    · exact hts_comma m
  have hnc2 : ',' ∉ jstr "v1=" ++ sig := by
    intro m
    rcases List.mem_append.mp m with m | m
    · revert m; decide
    · exact hsig1 m
  have hhead : jstr "t=" ++ ts ++ [','] ++ jstr "v1=" ++ sig
      = (jstr "t=" ++ ts) ++ ',' :: (jstr "v1=" ++ sig) := by
    simp
  have hsplit : jsSplit ',' (jstr "t=" ++ ts ++ [','] ++ jstr "v1=" ++ sig)
      = [jstr "t=" ++ ts, jstr "v1=" ++ sig] := by
    rw [hhead, jsSplit_append _ hnc1, jsSplit_no_sep hnc2]
  have hfalse : jsStartsWith (jstr "t=" ++ ts) (jstr "v1=") = false := by
    have e : jstr "t=" ++ ts = 't' :: '=' :: ts := rfl
    rw [e]
    simp [jsStartsWith]
  have hfind1 : ([jstr "t=" ++ ts, jstr "v1=" ++ sig].find?
      (fun p => jsStartsWith p (jstr "t="))) = some (jstr "t=" ++ ts) := by
    simp [List.find?, jsStartsWith_append]
  have hfind2 : ([jstr "t=" ++ ts, jstr "v1=" ++ sig].find?
      (fun p => jsStartsWith p (jstr "v1="))) = some (jstr "v1=" ++ sig) := by
    simp [List.find?, hfalse, jsStartsWith_append]
  have hfv1 : fieldValue (jstr "t=" ++ ts) = ts := by
    have e : jstr "t=" ++ ts = ['t'] ++ '=' :: ts := rfl
    rw [fieldValue, e, jsSplit_append _ (by decide), jsSplit_no_sep hts_eq]
    rfl
  have hfv2 : fieldValue (jstr "v1=" ++ sig) = sig := by
    have e : jstr "v1=" ++ sig = ['v', '1'] ++ '=' :: sig := rfl
    rw [fieldValue, e, jsSplit_append _ (by decide), jsSplit_no_sep hsig2]
    rfl
  simp only [stripeVerify, hlook, hsplit, hfind1, hfind2, hfv1, hfv2,
    parseIntJS_digits hts1 hts2, timingSafeEqualCaught_eq_beq]
  by_cases htol : now - (digitsToNat ts : Int) > TOLERANCE <;> simp [htol]

/-- C2: the Stripe verifier fails closed when the `stripe-signature` header
is absent; when the header does not decompose into a `t=` field and a
`v1=` field; when the timestamp is older than the 300-second tolerance;
and when the received signature differs from the recomputed HMAC (the
constant-time comparison's length-mismatch throw is caught to `false`, not
propagated, which the totality of `stripeVerify` reflects); and it
succeeds on a freshly computed HMAC over `{timestamp}.{rawBody}` keyed by
the secret, for any HMAC whose hex digest it is (hex digests contain
neither `,` nor `=`). -/
theorem c2_stripe_verifier :
    (∀ (hmac : JStr → JStr → JStr) (now : Int) hs secret rawBody,
        headerLookup hs (jstr "stripe-signature") = none →
        stripeVerify hmac now hs secret rawBody = false) ∧
    (∀ (hmac : JStr → JStr → JStr) (now : Int) hs secret rawBody sh,
        headerLookup hs (jstr "stripe-signature") = some sh →
        ((jsSplit ',' sh).find? (fun p => jsStartsWith p (jstr "t=")) = none ∨
         (jsSplit ',' sh).find? (fun p => jsStartsWith p (jstr "v1=")) = none) →
        stripeVerify hmac now hs secret rawBody = false) ∧
    (∀ (hmac : JStr → JStr → JStr) (now : Int) hs secret rawBody ts sig,
        headerLookup hs (jstr "stripe-signature")
          = some (jstr "t=" ++ ts ++ [','] ++ jstr "v1=" ++ sig) →
        ts ≠ [] → (∀ c ∈ ts, c.isDigit = true) →
        ',' ∉ sig → '=' ∉ sig →
        now - (digitsToNat ts : Int) > TOLERANCE →
        stripeVerify hmac now hs secret rawBody = false) ∧
    (∀ (hmac : JStr → JStr → JStr) (now : Int) hs secret rawBody ts sig,
        headerLookup hs (jstr "stripe-signature")
          = some (jstr "t=" ++ ts ++ [','] ++ jstr "v1=" ++ sig) →
        ts ≠ [] → (∀ c ∈ ts, c.isDigit = true) →
        ',' ∉ sig → '=' ∉ sig →
        ¬ (now - (digitsToNat ts : Int) > TOLERANCE) →
        sig ≠ hmac secret (ts ++ jstr "." ++ rawBody) →
        stripeVerify hmac now hs secret rawBody = false) ∧
    (∀ (hmac : JStr → JStr → JStr) (now : Int) hs secret rawBody ts,
        headerLookup hs (jstr "stripe-signature")
          = some (jstr "t=" ++ ts ++ [','] ++ jstr "v1="
              ++ hmac secret (ts ++ jstr "." ++ rawBody)) →
        ts ≠ [] → (∀ c ∈ ts, c.isDigit = true) →
        ',' ∉ hmac secret (ts ++ jstr "." ++ rawBody) →
        '=' ∉ hmac secret (ts ++ jstr "." ++ rawBody) →
        ¬ (now - (digitsToNat ts : Int) > TOLERANCE) →
        stripeVerify hmac now hs secret rawBody = true) := by
  refine ⟨?_, ?_, ?_, ?_, ?_⟩
  · intro hmac now hs secret rawBody hlook
    simp [stripeVerify, hlook]
  · intro hmac now hs secret rawBody sh hlook hmal
    simp only [stripeVerify, hlook]
    rcases hmal with hm | hm
    · rw [hm]
    · rw [hm]
      cases (jsSplit ',' sh).find? (fun p => jsStartsWith p (jstr "t=")) <;>
        rfl
  · intro hmac now hs secret rawBody ts sig hlook h1 h2 h3 h4 htol
    rw [stripeVerify_parsed hmac now hs secret rawBody ts sig hlook h1 h2 h3 h4,
      if_pos htol]
  · intro hmac now hs secret rawBody ts sig hlook h1 h2 h3 h4 htol hne
    rw [stripeVerify_parsed hmac now hs secret rawBody ts sig hlook h1 h2 h3 h4,
      if_neg htol]
    exact beq_eq_false_iff_ne.mpr hne
  · intro hmac now hs secret rawBody ts hlook h1 h2 h3 h4 htol
    rw [stripeVerify_parsed hmac now hs secret rawBody ts _ hlook h1 h2 h3 h4,
      if_neg htol]
    exact beq_self_eq_true _

/-- C2 witness: the five cases evaluated concretely, with
`hmac = fun _ _ => "ab"` standing for the HMAC primitive. -/
theorem c2_stripe_verifier_witness :
    stripeVerify (fun _ _ => jstr "ab") 400 [] (jstr "sec") (jstr "body")
      = false ∧
    stripeVerify (fun _ _ => jstr "ab") 400
      [(jstr "stripe-signature", jstr "bad")] (jstr "sec") (jstr "body")
      = false ∧
    stripeVerify (fun _ _ => jstr "ab") 400
      [(jstr "stripe-signature", jstr "t=1,v1=ab")] (jstr "sec") (jstr "body")
      = false ∧
    stripeVerify (fun _ _ => jstr "ab") 0
      [(jstr "stripe-signature", jstr "t=1,v1=xy")] (jstr "sec") (jstr "body")
      = false ∧
    stripeVerify (fun _ _ => jstr "ab") 0
      [(jstr "stripe-signature", jstr "t=1,v1=ab")] (jstr "sec") (jstr "body")
      = true :=
  ⟨c2_stripe_verifier.1 (fun _ _ => jstr "ab") 400 [] (jstr "sec")
      (jstr "body") rfl,
   c2_stripe_verifier.2.1 (fun _ _ => jstr "ab") 400 _ (jstr "sec")
      (jstr "body") (jstr "bad") rfl (Or.inl (by decide)),
   c2_stripe_verifier.2.2.1 (fun _ _ => jstr "ab") 400 _ (jstr "sec")
      (jstr "body") ['1'] (jstr "ab") rfl (by decide) (by decide) (by decide)
      (by decide) (by decide),
   c2_stripe_verifier.2.2.2.1 (fun _ _ => jstr "ab") 0 _ (jstr "sec")
      (jstr "body") ['1'] (jstr "xy") rfl (by decide) (by decide) (by decide)
      (by decide) (by decide) (by decide),
   c2_stripe_verifier.2.2.2.2 (fun _ _ => jstr "ab") 0 _ (jstr "sec")
      (jstr "body") ['1'] rfl (by decide) (by decide) (by decide) (by decide)
      (by decide)⟩

/-! ## Data model

Entities of the Prisma schema as used by the services and routes: the
`Endpoint` (destination), the `WebhookEvent`, and the work item placed on
the BullMQ queue.  The durable store plus the queue is one `Store` value
threaded through the operations. -/

/-- A destination (`Endpoint` row). -/
structure Endpoint where
  id : Nat
  isActive : Bool
  isPaused : Bool
  provider : JStr
  secret : Option JStr
  rateLimit : Nat
  archivedSuccessCount : Nat
deriving DecidableEq, Repr

/-- An ingested event (`WebhookEvent` row). -/
structure WebhookEvent where
  id : Nat
  endpointId : Nat
  status : EventStatus
  receivedAt : Int
  payload : JStr
  headers : List (JStr × JStr)
deriving DecidableEq, Repr

/-- A Scheduled Work Item (`queue.add(name, { eventId })`). -/
structure Job where
  name : JStr
  eventId : Nat
deriving DecidableEq, Repr

/-- The relational store plus the durable queue. -/
structure Store where
  endpoints : List Endpoint
  events : List WebhookEvent
  queue : List Job
deriving DecidableEq, Repr

/-! ## Verifier factory

From `VerifierFactory.getVerifier`: `switch (provider.toLowerCase())`,
`'stripe'` selects the `StripeVerifier`, everything else the
always-true `GenericVerifier`. -/

/-- `provider.toLowerCase()`. -/
def toLowerCase (s : JStr) : JStr := s.map Char.toLower

/-- The two verifier variants the factory can return. -/
inductive VerifierKind where
  | stripe
  | generic
deriving DecidableEq, Repr

/-- `VerifierFactory.getVerifier(provider)`. -/
def getVerifier (provider : JStr) : VerifierKind :=
  if toLowerCase provider == jstr "stripe" then VerifierKind.stripe
  else VerifierKind.generic

/-- `verifier.verify(payload, headers, secret, rawBody)` for each variant;
the generic verifier ignores all arguments and returns `true`. -/
def runVerifier (hmac : JStr → JStr → JStr) (now : Int) :
    VerifierKind → JStr → List (JStr × JStr) → JStr → JStr → Bool
  | VerifierKind.stripe, _payload, headers, secret, rawBody =>
      stripeVerify hmac now headers secret rawBody
  | VerifierKind.generic, _, _, _, _ => true

/-! ## Ingestion pipeline

From `IngestionService.ingest` and the `POST /hooks/:endpointId` route. -/

/-- Error taxonomy of the ingestion path (`Endpoint not found or
inactive`, `Invalid Signature`). -/
inductive IngestError where
  | NotFound
  | InvalidSignature
deriving DecidableEq, Repr

/-- `prisma.endpoint.findUnique({ where: { id } })`. -/
def findEndpoint (s : Store) (endpointId : Nat) : Option Endpoint :=
  s.endpoints.find? (fun e => e.id == endpointId)

/-- Steps 3 and 4 of `IngestionService.ingest`: create the `WebhookEvent`
row with `PAUSED`/`PENDING` initial status, then enqueue a
`dispatch-webhook` work item only when not paused.  `newId` is the id the
store assigns to the created row. -/
def persistAndEnqueue (s : Store) (endpoint : Endpoint) (newId : Nat)
    (payload : JStr) (headers : List (JStr × JStr)) (now : Int)
    (isPaused : Bool) : Store × Nat :=
  let initialStatus :=
    if isPaused then EventStatus.PAUSED else EventStatus.PENDING
  let event : WebhookEvent :=
    { id := newId, endpointId := endpoint.id, status := initialStatus,
      receivedAt := now, payload := payload, headers := headers }
  let s1 := { s with events := s.events ++ [event] }
  if !isPaused then
    ({ s1 with queue := s1.queue
        ++ [{ name := jstr "dispatch-webhook", eventId := newId }] }, newId)
  else (s1, newId)

/-- `IngestionService.ingest(endpointId, payload, headers, isPaused,
rawBody)`: load the endpoint (`NotFound` when missing or inactive), verify
the signature when a secret is configured and the provider is not
`'generic'` (`InvalidSignature` on failure), then persist and, when not
paused, enqueue. -/
def ingest (hmac : JStr → JStr → JStr) (now : Int) (s : Store)
    (endpointId : Nat) (payload : JStr) (headers : List (JStr × JStr))
    (isPaused : Bool) (rawBody : JStr) (newId : Nat) :
    Except IngestError (Store × Nat) :=
  match findEndpoint s endpointId with
  | none => Except.error IngestError.NotFound
  | some endpoint =>
    if !endpoint.isActive then Except.error IngestError.NotFound
    else
      match endpoint.secret with
      | some secret =>
        if endpoint.provider != jstr "generic" then
          if runVerifier hmac now (getVerifier endpoint.provider) payload
              headers secret rawBody then
            Except.ok (persistAndEnqueue s endpoint newId payload headers now
              isPaused)
          else Except.error IngestError.InvalidSignature
        else
          Except.ok (persistAndEnqueue s endpoint newId payload headers now
            isPaused)
      | none =>
        Except.ok (persistAndEnqueue s endpoint newId payload headers now
          isPaused)

/-- The `POST /hooks/:endpointId` route: resolve the endpoint's pause
state (the cache-miss path reads `isPaused` from the store) and call the
ingestion service with it; a missing endpoint is a 404. -/
def handleHook (hmac : JStr → JStr → JStr) (now : Int) (s : Store)
    (endpointId : Nat) (payload : JStr) (headers : List (JStr × JStr))
    (rawBody : JStr) (newId : Nat) : Except IngestError (Store × Nat) :=
  match findEndpoint s endpointId with
  | none => Except.error IngestError.NotFound
  | some endpoint =>
      ingest hmac now s endpointId payload headers endpoint.isPaused rawBody
        newId

/-- The store the route leaves behind: the ingestion result on success,
the untouched input store when ingestion threw (the route catches and
returns a 400). -/
def ingestResultStore (s : Store) (r : Except IngestError (Store × Nat)) :
    Store :=
  match r with
  | Except.ok (s1, _) => s1
  | Except.error _ => s

/-- Every successful run of `ingest` returns exactly the
persist-and-enqueue result for the endpoint it looked up. -/
theorem ingest_ok (hmac : JStr → JStr → JStr) (now : Int) (s : Store)
    (endpointId : Nat) (payload : JStr) (headers : List (JStr × JStr))
    (isPaused : Bool) (rawBody : JStr) (newId : Nat) (endpoint : Endpoint)
    (s1 : Store) (nid : Nat)
    (hfind : findEndpoint s endpointId = some endpoint)
    (hok : ingest hmac now s endpointId payload headers isPaused rawBody newId
      = Except.ok (s1, nid)) :
    (s1, nid) = persistAndEnqueue s endpoint newId payload headers now
      isPaused := by
  unfold ingest at hok
  split at hok
  · exact Except.noConfusion hok
  next ep heq =>
    rw [hfind] at heq
    obtain rfl := Option.some.inj heq
    split at hok
    · exact Except.noConfusion hok
    · split at hok
      · split at hok
        · split at hok
          · exact (Except.ok.inj hok).symm
          · exact Except.noConfusion hok
        · exact (Except.ok.inj hok).symm
      · exact (Except.ok.inj hok).symm

/-- C3: for every inbound event the hook route accepts, a paused
destination gets the event persisted with status PAUSED and no work item
enqueued, and a non-paused destination gets the event persisted with
status PENDING and exactly one `dispatch-webhook` work item for the new
event id appended to the queue. -/
theorem c3_ingest_paused_buffers_else_enqueues :
    ∀ (hmac : JStr → JStr → JStr) (now : Int) (s : Store) (endpointId : Nat)
      (payload : JStr) (headers : List (JStr × JStr)) (rawBody : JStr)
      (newId : Nat) (endpoint : Endpoint) (s1 : Store) (nid : Nat),
      findEndpoint s endpointId = some endpoint →
      handleHook hmac now s endpointId payload headers rawBody newId
        = Except.ok (s1, nid) →
      (endpoint.isPaused = true →
        s1.events = s.events ++
          [{ id := newId, endpointId := endpoint.id,
             status := EventStatus.PAUSED, receivedAt := now,
             payload := payload, headers := headers }] ∧
        s1.queue = s.queue) ∧
      (endpoint.isPaused = false →
        s1.events = s.events ++
          [{ id := newId, endpointId := endpoint.id,
             status := EventStatus.PENDING, receivedAt := now,
             payload := payload, headers := headers }] ∧
        s1.queue = s.queue
          ++ [{ name := jstr "dispatch-webhook", eventId := newId }]) := by
  intro hmac now s endpointId payload headers rawBody newId endpoint s1 nid
    hfind hok
  unfold handleHook at hok
  rw [hfind] at hok
  have h2 := ingest_ok hmac now s endpointId payload headers endpoint.isPaused
    rawBody newId endpoint s1 nid hfind hok
  constructor
  · intro hp
    rw [hp] at h2
    have hs1 : s1 = { s with events := s.events ++
        [{ id := newId, endpointId := endpoint.id,
           status := EventStatus.PAUSED, receivedAt := now,
           payload := payload, headers := headers }] } :=
      congrArg Prod.fst h2
    rw [hs1]
    exact ⟨rfl, rfl⟩
  · intro hp
    rw [hp] at h2
    have hs1 : s1 = { s with
        events := s.events ++
          [{ id := newId, endpointId := endpoint.id,
             status := EventStatus.PENDING, receivedAt := now,
             payload := payload, headers := headers }],
        queue := s.queue
          ++ [{ name := jstr "dispatch-webhook", eventId := newId }] } :=
      congrArg Prod.fst h2
    rw [hs1]
    exact ⟨rfl, rfl⟩

/-- A paused, active, generic destination used in the concrete runs. -/
def epPaused : Endpoint :=
  { id := 1, isActive := true, isPaused := true, provider := jstr "generic",
    secret := none, rateLimit := 5, archivedSuccessCount := 0 }

/-- A live (not paused), active, generic destination. -/
def epLive : Endpoint :=
  { id := 2, isActive := true, isPaused := false, provider := jstr "generic",
    secret := none, rateLimit := 5, archivedSuccessCount := 0 }

/-- A store holding the two example destinations and nothing else. -/
def store0 : Store :=
  { endpoints := [epPaused, epLive], events := [], queue := [] }

/-- The store produced by ingesting one event to the paused destination of
`store0`: the event is buffered with status PAUSED, the queue is empty. -/
def store0PausedResult : Store :=
  { endpoints := [epPaused, epLive],
    events := [{ id := 10, endpointId := 1, status := EventStatus.PAUSED,
                 receivedAt := 0, payload := jstr "p", headers := [] }],
    queue := [] }

/-- The store produced by ingesting one event to the live destination of
`store0`: the event is persisted PENDING and one work item is enqueued. -/
def store0LiveResult : Store :=
  { endpoints := [epPaused, epLive],
    events := [{ id := 11, endpointId := 2, status := EventStatus.PENDING,
                 receivedAt := 0, payload := jstr "p", headers := [] }],
    queue := [{ name := jstr "dispatch-webhook", eventId := 11 }] }

/-- C3 witness: on `store0`, ingesting to the paused destination buffers a
PAUSED event and enqueues nothing, and ingesting to the live destination
persists a PENDING event and enqueues exactly one work item. -/
theorem c3_ingest_witness :
    (store0PausedResult.events = store0.events ++
        [{ id := 10, endpointId := 1, status := EventStatus.PAUSED,
           receivedAt := 0, payload := jstr "p", headers := [] }] ∧
      store0PausedResult.queue = store0.queue) ∧
    (store0LiveResult.events = store0.events ++
        [{ id := 11, endpointId := 2, status := EventStatus.PENDING,
           receivedAt := 0, payload := jstr "p", headers := [] }] ∧
      store0LiveResult.queue = store0.queue
        ++ [{ name := jstr "dispatch-webhook", eventId := 11 }]) :=
  ⟨(c3_ingest_paused_buffers_else_enqueues (fun _ _ => jstr "h") 0 store0 1
      (jstr "p") [] (jstr "r") 10 epPaused store0PausedResult 10 (by decide)
      rfl).1 rfl,
   (c3_ingest_paused_buffers_else_enqueues (fun _ _ => jstr "h") 0 store0 2
      (jstr "p") [] (jstr "r") 11 epLive store0LiveResult 11 (by decide)
      rfl).2 rfl⟩

/-- C6: ingestion fails with NotFound for a missing or inactive
destination and with InvalidSignature when the selected verifier returns
false, and in every error case the store the route leaves behind is the
unchanged input store (nothing persisted, nothing enqueued). -/
theorem c6_ingest_error_paths :
    ∀ (hmac : JStr → JStr → JStr) (now : Int) (s : Store) (endpointId : Nat)
      (payload : JStr) (headers : List (JStr × JStr)) (isPaused : Bool)
      (rawBody : JStr) (newId : Nat),
      (findEndpoint s endpointId = none →
        ingest hmac now s endpointId payload headers isPaused rawBody newId
          = Except.error IngestError.NotFound) ∧
      (∀ endpoint, findEndpoint s endpointId = some endpoint →
        endpoint.isActive = false →
        ingest hmac now s endpointId payload headers isPaused rawBody newId
          = Except.error IngestError.NotFound) ∧
      (∀ endpoint secret, findEndpoint s endpointId = some endpoint →
        endpoint.isActive = true →
        endpoint.secret = some secret →
        endpoint.provider ≠ jstr "generic" →
        runVerifier hmac now (getVerifier endpoint.provider) payload headers
          secret rawBody = false →
        ingest hmac now s endpointId payload headers isPaused rawBody newId
          = Except.error IngestError.InvalidSignature) ∧
      (∀ e, ingest hmac now s endpointId payload headers isPaused rawBody newId
          = Except.error e →
        ingestResultStore s
          (ingest hmac now s endpointId payload headers isPaused rawBody newId)
          = s) := by
  intro hmac now s endpointId payload headers isPaused rawBody newId
  refine ⟨?_, ?_, ?_, ?_⟩
  · intro hfind
    simp [ingest, hfind]
  · intro endpoint hfind hact
    simp [ingest, hfind, hact]
  · intro endpoint secret hfind hact hsec hgen hver
    have hgen2 : (endpoint.provider != jstr "generic") = true :=
      bne_iff_ne.mpr hgen
    simp [ingest, hfind, hact, hsec, hgen2, hver]
  · intro e he
    rw [he]
    rfl

/-- An inactive destination used in the concrete error-path runs. -/
def epInactive : Endpoint :=
  { id := 3, isActive := false, isPaused := false,
    provider := jstr "generic", secret := none, rateLimit := 5,
    archivedSuccessCount := 0 }

/-- An active stripe-provider destination with a configured secret. -/
def epStripe : Endpoint :=
  { id := 4, isActive := true, isPaused := false, provider := jstr "stripe",
    secret := some (jstr "sec"), rateLimit := 5,
    archivedSuccessCount := 0 }

/-- A store holding the inactive and the stripe destination. -/
def store1 : Store :=
  { endpoints := [epInactive, epStripe], events := [], queue := [] }

/-- C6 witness: a missing id, the inactive destination, and the stripe
destination given no signature header all make ingestion fail with the
expected error, and the route's store is unchanged on each failure. -/
theorem c6_ingest_error_witness :
    ingest (fun _ _ => jstr "h") 0 store1 99 (jstr "p") [] false (jstr "r") 12
      = Except.error IngestError.NotFound ∧
    ingest (fun _ _ => jstr "h") 0 store1 3 (jstr "p") [] false (jstr "r") 12
      = Except.error IngestError.NotFound ∧
    ingest (fun _ _ => jstr "h") 0 store1 4 (jstr "p") [] false (jstr "r") 12
      = Except.error IngestError.InvalidSignature ∧
    ingestResultStore store1
      (ingest (fun _ _ => jstr "h") 0 store1 4 (jstr "p") [] false (jstr "r")
        12) = store1 :=
  ⟨(c6_ingest_error_paths (fun _ _ => jstr "h") 0 store1 99 (jstr "p") []
      false (jstr "r") 12).1 (by decide),
   (c6_ingest_error_paths (fun _ _ => jstr "h") 0 store1 3 (jstr "p") []
      false (jstr "r") 12).2.1 epInactive (by decide) rfl,
   (c6_ingest_error_paths (fun _ _ => jstr "h") 0 store1 4 (jstr "p") []
      false (jstr "r") 12).2.2.1 epStripe (jstr "sec") (by decide) rfl rfl
      (by decide) rfl,
   (c6_ingest_error_paths (fun _ _ => jstr "h") 0 store1 4 (jstr "p") []
      false (jstr "r") 12).2.2.2 IngestError.InvalidSignature
      ((c6_ingest_error_paths (fun _ _ => jstr "h") 0 store1 4 (jstr "p") []
        false (jstr "r") 12).2.2.1 epStripe (jstr "sec") (by decide) rfl rfl
        (by decide) rfl)⟩

/-- C10: the verifier factory returns the always-true generic verifier for
every provider whose lowercase form is not `stripe`; hence an active
destination with a configured secret and such a provider (other than
`generic` itself, so that verification is invoked) always ingests
successfully — no payload, header, or raw body combination is rejected. -/
theorem c10_nonstripe_skips_verification :
    (∀ provider : JStr, toLowerCase provider ≠ jstr "stripe" →
        getVerifier provider = VerifierKind.generic) ∧
    (∀ (hmac : JStr → JStr → JStr) (now : Int) (payload : JStr)
        (headers : List (JStr × JStr)) (secret rawBody : JStr),
        runVerifier hmac now VerifierKind.generic payload headers secret
          rawBody = true) ∧
    (∀ (hmac : JStr → JStr → JStr) (now : Int) (s : Store)
        (endpointId : Nat) (payload : JStr) (headers : List (JStr × JStr))
        (isPaused : Bool) (rawBody : JStr) (newId : Nat)
        (endpoint : Endpoint) (secret : JStr),
        findEndpoint s endpointId = some endpoint →
        endpoint.isActive = true →
        endpoint.secret = some secret →
        endpoint.provider ≠ jstr "generic" →
        toLowerCase endpoint.provider ≠ jstr "stripe" →
        ingest hmac now s endpointId payload headers isPaused rawBody newId
          = Except.ok (persistAndEnqueue s endpoint newId payload headers now
              isPaused)) := by
  refine ⟨?_, ?_, ?_⟩
  · intro provider hne
    have hb : (toLowerCase provider == jstr "stripe") = false :=
      beq_eq_false_iff_ne.mpr hne
    simp [getVerifier, hb]
  · intro hmac now payload headers secret rawBody
    rfl
  · intro hmac now s endpointId payload headers isPaused rawBody newId
      endpoint secret hfind hact hsec hgen hstripe
    have hgen2 : (endpoint.provider != jstr "generic") = true :=
      bne_iff_ne.mpr hgen
    have hb : (toLowerCase endpoint.provider == jstr "stripe") = false :=
      beq_eq_false_iff_ne.mpr hstripe
    have hver : runVerifier hmac now (getVerifier endpoint.provider) payload
        headers secret rawBody = true := by
      simp [getVerifier, hb, runVerifier]
    simp [ingest, hfind, hact, hsec, hgen2, hver]

/-- An active shopify-provider destination with a configured secret. -/
def epShopify : Endpoint :=
  { id := 5, isActive := true, isPaused := false,
    provider := jstr "shopify", secret := some (jstr "sec"),
    rateLimit := 5, archivedSuccessCount := 0 }

/-- A store holding only the shopify destination. -/
def store2 : Store := { endpoints := [epShopify], events := [], queue := [] }

/-- C10 witness: the factory maps `shopify` to the generic verifier, the
generic verifier accepts arbitrary inputs, and ingestion to the shopify
destination succeeds with no signature header present at all. -/
theorem c10_nonstripe_witness :
    getVerifier (jstr "shopify") = VerifierKind.generic ∧
    runVerifier (fun _ _ => jstr "h") 0 VerifierKind.generic (jstr "p") []
      (jstr "sec") (jstr "r") = true ∧
    ingest (fun _ _ => jstr "h") 0 store2 5 (jstr "p") [] false (jstr "r") 13
      = Except.ok (persistAndEnqueue store2 epShopify 13 (jstr "p") [] 0
          false) :=
  ⟨c10_nonstripe_skips_verification.1 (jstr "shopify") (by decide),
   c10_nonstripe_skips_verification.2.1 (fun _ _ => jstr "h") 0 (jstr "p") []
     (jstr "sec") (jstr "r"),
   c10_nonstripe_skips_verification.2.2 (fun _ _ => jstr "h") 0 store2 5
     (jstr "p") [] false (jstr "r") 13 epShopify (jstr "sec") (by decide) rfl
     rfl (by decide) (by decide)⟩

/-! ## Pause/resume controller

From the `POST /endpoints/:id/toggle-pause` route: flip the endpoint's
`isPaused` flag; when the new state is un-paused, find the endpoint's
PAUSED events, transition exactly those rows to PENDING
(`updateMany` scoped to `status: 'PAUSED'`), and bulk-enqueue one
`dispatch-webhook` work item per transitioned event. -/

/-- The `findMany({ where: { endpointId, status: 'PAUSED' } })` query. -/
def pausedEventsOf (s : Store) (endpointId : Nat) : List WebhookEvent :=
  s.events.filter (fun ev =>
    ev.endpointId == endpointId && ev.status == EventStatus.PAUSED)

/-- The resume branch of the toggle route: transition the PAUSED rows of
this endpoint to PENDING and enqueue one work item per transitioned row;
when there are none, do nothing (`if (pausedEvents.length > 0)`). -/
def resumeFlush (s : Store) (endpointId : Nat) : Store × Nat :=
  let pausedEvents := pausedEventsOf s endpointId
  if pausedEvents.length > 0 then
    let s1 := { s with events := s.events.map (fun (ev : WebhookEvent) =>
      if ev.endpointId == endpointId && ev.status == EventStatus.PAUSED then
        { ev with status := EventStatus.PENDING }
      else ev) }
    let jobs := pausedEvents.map (fun (ev : WebhookEvent) =>
      ({ name := jstr "dispatch-webhook", eventId := ev.id } : Job))
    ({ s1 with queue := s1.queue ++ jobs }, pausedEvents.length)
  else (s, 0)

/-- `POST /endpoints/:id/toggle-pause`: 404 on unknown endpoint, else flip
the flag and, when resuming, flush the buffered PAUSED events.  Returns
the new store, the new paused state, and `flushedEvents`. -/
def togglePause (s : Store) (endpointId : Nat) :
    Option (Store × Bool × Nat) :=
  match findEndpoint s endpointId with
  | none => none
  | some endpoint =>
    let newPausedState := !endpoint.isPaused
    let s1 := { s with endpoints := s.endpoints.map (fun e =>
      if e.id == endpointId then { e with isPaused := newPausedState }
      else e) }
    if newPausedState = false then
      let r := resumeFlush s1 endpointId
      some (r.1, newPausedState, r.2)
    else some (s1, newPausedState, 0)

theorem map_if_eq_self {α : Type} (l : List α) (p : α → Bool) (f : α → α)
    (h : ∀ x ∈ l, p x = false) :
    l.map (fun x => if p x then f x else x) = l := by
  induction l with
  | nil => rfl
  | cons a l ih =>
    have ha := h a (List.mem_cons_self a l)
    simp only [List.map_cons, ha, Bool.false_eq_true, if_false,
      ih (fun x hx => h x (List.mem_cons_of_mem a hx))]

/-- What one `resumeFlush` run does to each component of the store. -/
theorem resumeFlush_spec (s : Store) (eid : Nat) :
    (resumeFlush s eid).2 = (pausedEventsOf s eid).length ∧
    (resumeFlush s eid).1.endpoints = s.endpoints ∧
    (resumeFlush s eid).1.events = s.events.map (fun ev =>
      if ev.endpointId == eid && ev.status == EventStatus.PAUSED
      then { ev with status := EventStatus.PENDING } else ev) ∧
    (resumeFlush s eid).1.queue = s.queue ++ (pausedEventsOf s eid).map
      (fun ev => { name := jstr "dispatch-webhook", eventId := ev.id }) := by
  unfold resumeFlush
  by_cases hlen : (pausedEventsOf s eid).length > 0
  · rw [if_pos hlen]
    exact ⟨rfl, rfl, rfl, rfl⟩
  · rw [if_neg hlen]
    have hnil : pausedEventsOf s eid = [] := by
      cases hpe : pausedEventsOf s eid with
      | nil => rfl
      | cons a l => rw [hpe] at hlen; simp at hlen
    have hall : ∀ ev ∈ s.events,
        (ev.endpointId == eid && ev.status == EventStatus.PAUSED) = false := by
      intro ev hev
      have h2 : s.events.filter (fun ev =>
          ev.endpointId == eid && ev.status == EventStatus.PAUSED) = [] := hnil
      have h3 := List.filter_eq_nil_iff.mp h2 ev hev
      exact Bool.eq_false_iff.mpr h3
    refine ⟨by simp [hnil], rfl, (map_if_eq_self _ _ _ hall).symm, ?_⟩
    rw [hnil]
    simp

/-- After the transition map, no event of this endpoint is PAUSED any
more. -/
theorem resumed_event_not_paused (eid : Nat) (ev : WebhookEvent) :
    ((if ev.endpointId == eid && ev.status == EventStatus.PAUSED then
        { ev with status := EventStatus.PENDING } else ev).endpointId == eid
      && (if ev.endpointId == eid && ev.status == EventStatus.PAUSED then
        { ev with status := EventStatus.PENDING } else ev).status
        == EventStatus.PAUSED) = false := by
  by_cases h : (ev.endpointId == eid && ev.status == EventStatus.PAUSED)
      = true
  · simp [h]
  · rw [if_neg h]
    exact Bool.eq_false_iff.mpr h

/-- A `resumeFlush` over a store with no PAUSED rows for the endpoint is a
no-op that flushes zero events. -/
theorem resumeFlush_noop (s : Store) (eid : Nat)
    (h : pausedEventsOf s eid = []) : resumeFlush s eid = (s, 0) := by
  unfold resumeFlush
  rw [h]
  simp

/-- C4: toggling a currently-paused destination un-pauses it, transitions
exactly its PAUSED events to PENDING (all other rows untouched), enqueues
exactly one work item per transitioned event, and a second resume run
immediately after finds no PAUSED rows, transitions nothing and enqueues
nothing. -/
theorem c4_resume_exact_and_idempotent :
    ∀ (s : Store) (endpointId : Nat) (endpoint : Endpoint) (s1 : Store)
      (n : Nat),
      findEndpoint s endpointId = some endpoint →
      endpoint.isPaused = true →
      togglePause s endpointId = some (s1, false, n) →
      n = (pausedEventsOf s endpointId).length ∧
      s1.events = s.events.map (fun ev =>
        if ev.endpointId == endpointId && ev.status == EventStatus.PAUSED
        then { ev with status := EventStatus.PENDING } else ev) ∧
      s1.queue = s.queue ++ (pausedEventsOf s endpointId).map
        (fun ev => { name := jstr "dispatch-webhook", eventId := ev.id }) ∧
      resumeFlush s1 endpointId = (s1, 0) := by
  intro s endpointId endpoint s1 n hfind hp htog
  unfold togglePause at htog
  split at htog
  · exact Option.noConfusion htog
  next ep heq =>
    rw [hfind] at heq
    obtain rfl := Option.some.inj heq
    rw [hp] at htog
    simp only [Bool.not_true, if_true] at htog
    have hpair := Option.some.inj htog
    obtain ⟨hs1, hrest⟩ := Prod.mk.inj hpair
    obtain ⟨-, hn⟩ := Prod.mk.inj hrest
    have hevents : s1.events = s.events.map (fun ev =>
        if ev.endpointId == endpointId && ev.status == EventStatus.PAUSED
        then { ev with status := EventStatus.PENDING } else ev) := by
      rw [← hs1]
      exact (resumeFlush_spec _ _).2.2.1
    refine ⟨?_, hevents, ?_, ?_⟩
    · rw [← hn]
      exact (resumeFlush_spec _ _).1
    · rw [← hs1]
      exact (resumeFlush_spec _ _).2.2.2
    · have hnil2 : pausedEventsOf s1 endpointId = [] := by
        show s1.events.filter (fun ev =>
          ev.endpointId == endpointId
            && ev.status == EventStatus.PAUSED) = []
        rw [hevents]
        rw [List.filter_eq_nil_iff]
        intro a ha
        obtain ⟨ev, hev, rfl⟩ := List.mem_map.mp ha
        exact fun hcontra => Bool.noConfusion
          ((resumed_event_not_paused endpointId ev).symm.trans hcontra)
      exact resumeFlush_noop s1 endpointId hnil2

/-- A paused destination holding two PAUSED events and one COMPLETED
event, for the concrete resume run. -/
def epBuffering : Endpoint :=
  { id := 7, isActive := true, isPaused := true, provider := jstr "generic",
    secret := none, rateLimit := 5, archivedSuccessCount := 0 }

/-- A store with the paused destination, two buffered PAUSED events and
one COMPLETED event. -/
def store3 : Store :=
  { endpoints := [epBuffering],
    events :=
      [{ id := 21, endpointId := 7, status := EventStatus.PAUSED,
         receivedAt := 0, payload := jstr "a", headers := [] },
       { id := 22, endpointId := 7, status := EventStatus.PAUSED,
         receivedAt := 0, payload := jstr "b", headers := [] },
       { id := 23, endpointId := 7, status := EventStatus.COMPLETED,
         receivedAt := 0, payload := jstr "c", headers := [] }],
    queue := [] }

/-- The store after resuming `store3`: both PAUSED events are PENDING, the
COMPLETED one untouched, and two work items are enqueued. -/
def store3Resumed : Store :=
  { endpoints :=
      [{ id := 7, isActive := true, isPaused := false,
         provider := jstr "generic", secret := none, rateLimit := 5,
         archivedSuccessCount := 0 }],
    events :=
      [{ id := 21, endpointId := 7, status := EventStatus.PENDING,
         receivedAt := 0, payload := jstr "a", headers := [] },
       { id := 22, endpointId := 7, status := EventStatus.PENDING,
         receivedAt := 0, payload := jstr "b", headers := [] },
       { id := 23, endpointId := 7, status := EventStatus.COMPLETED,
         receivedAt := 0, payload := jstr "c", headers := [] }],
    queue := [{ name := jstr "dispatch-webhook", eventId := 21 },
              { name := jstr "dispatch-webhook", eventId := 22 }] }

/-- C4 witness: resuming `store3` transitions exactly its two PAUSED
events, enqueues exactly two work items, and an immediate second resume
flushes zero events and changes nothing. -/
theorem c4_resume_witness :
    2 = (pausedEventsOf store3 7).length ∧
    store3Resumed.events = store3.events.map (fun ev =>
      if ev.endpointId == 7 && ev.status == EventStatus.PAUSED
      then { ev with status := EventStatus.PENDING } else ev) ∧
    store3Resumed.queue = store3.queue ++ (pausedEventsOf store3 7).map
      (fun ev => { name := jstr "dispatch-webhook", eventId := ev.id }) ∧
    resumeFlush store3Resumed 7 = (store3Resumed, 0) :=
  c4_resume_exact_and_idempotent store3 7 epBuffering store3Resumed 2
    (by decide) rfl rfl

/-! ## Outbound headers

The second worker revision copies the stored inbound headers, deletes
`host`, `content-length`, `connection` and `accept-encoding`, and spreads
the rest over the `Content-Type` / `X-Webhook-Buffer-ID` base entries.
`src/workers/worker.ts` spreads the stored headers with no deletion.
JavaScript object spread lets the later entry win on key collision, which
`objGet` models by preferring entries further right. -/

/-- The four headers deleted before forwarding. -/
def forbiddenHeaders : List JStr :=
  [jstr "host", jstr "content-length", jstr "connection",
   jstr "accept-encoding"]

/-- Key lookup in a spread-built JavaScript object literal: the rightmost
entry with the key wins. -/
def objGet : List (JStr × JStr) → JStr → Option JStr
  | [], _ => none
  | (k, v) :: rest, key =>
    match objGet rest key with
    | some v1 => some v1
    | none => if k == key then some v else none

/-- Outbound header object of the second worker revision. -/
def outboundHeaders (eventIdStr : JStr) (stored : List (JStr × JStr)) :
    List (JStr × JStr) :=
  let headers := stored.filter (fun p => !(forbiddenHeaders.contains p.1))
  [(jstr "Content-Type", jstr "application/json"),
   (jstr "X-Webhook-Buffer-ID", eventIdStr)] ++ headers

/-- Outbound header object of the `src/workers/worker.ts` revision: the
stored inbound headers are spread with no filtering. -/
def outboundHeaders_v1 (eventIdStr : JStr) (stored : List (JStr × JStr)) :
    List (JStr × JStr) :=
  [(jstr "Content-Type", jstr "application/json"),
   (jstr "X-Webhook-Buffer-ID", eventIdStr)] ++ stored

/-- C9 counterexample: in the `src/workers/worker.ts` revision, an event
whose stored headers contain `host` is forwarded with that `host` header
present, so the outbound header set is not free of the inbound
artifacts. -/
theorem c9_counterexample_worker_v1_forwards_host :
    objGet (outboundHeaders_v1 (jstr "e1")
        [(jstr "host", jstr "internal.example")]) (jstr "host")
      = some (jstr "internal.example") := by
  decide

theorem objGet_append (a b : List (JStr × JStr)) (k : JStr) :
    objGet (a ++ b) k
      = match objGet b k with
        | some v => some v
        | none => objGet a k := by
  induction a with
  | nil =>
    simp only [List.nil_append, objGet]
    cases objGet b k <;> rfl
  | cons p a ih =>
    obtain ⟨k1, v1⟩ := p
    simp only [List.cons_append, objGet, List.append_eq, ih]
    cases objGet b k with
    | some v => rfl
    | none => rfl

theorem objGet_none_of_no_key (l : List (JStr × JStr)) (k : JStr)
    (h : ∀ p ∈ l, (p.1 == k) = false) : objGet l k = none := by
  induction l with
  | nil => rfl
  | cons p l ih =>
    obtain ⟨k1, v1⟩ := p
    have h1 := h (k1, v1) (List.mem_cons_self _ _)
    simp only [objGet, ih (fun q hq => h q (List.mem_cons_of_mem _ hq))]
    simp [h1]

theorem objGet_filter (l : List (JStr × JStr)) (k : JStr)
    (pred : JStr × JStr → Bool)
    (h : ∀ p : JStr × JStr, (p.1 == k) = true → pred p = true) :
    objGet (l.filter pred) k = objGet l k := by
  induction l with
  | nil => rfl
  | cons p l ih =>
    obtain ⟨k1, v1⟩ := p
    by_cases hp : pred (k1, v1) = true
    · rw [List.filter_cons_of_pos hp]
      simp only [objGet, ih]
    · rw [List.filter_cons_of_neg hp]
      have hk : (k1 == k) = false := by
        cases hkk : (k1 == k) with
        | false => rfl
        | true => exact absurd (h (k1, v1) hkk) hp
      simp only [objGet, ih]
      cases objGet l k with
      | some v => rfl
      | none => simp [hk]

/-- C9 (amended to the second worker revision, the one that strips the
inbound artifacts): the outbound header object never contains `host`,
`content-length`, `connection` or `accept-encoding`, and every other
stored inbound header is forwarded with its stored value. -/
theorem c9_forbidden_headers_stripped :
    (∀ (eventIdStr : JStr) (stored : List (JStr × JStr)) (k : JStr),
        k ∈ forbiddenHeaders →
        objGet (outboundHeaders eventIdStr stored) k = none) ∧
    (∀ (eventIdStr : JStr) (stored : List (JStr × JStr)) (k v : JStr),
        k ∉ forbiddenHeaders →
        objGet stored k = some v →
        objGet (outboundHeaders eventIdStr stored) k = some v) := by
  constructor
  · intro eventIdStr stored k hk
    unfold outboundHeaders
    rw [objGet_append]
    have hfilter : objGet (stored.filter
        (fun p => !(forbiddenHeaders.contains p.1))) k = none := by
      apply objGet_none_of_no_key
      intro p hp
      have hpred := List.of_mem_filter hp
      cases hkk : (p.1 == k) with
      | false => rfl
      | true =>
        exfalso
        have : p.1 = k := eq_of_beq hkk
        rw [this] at hpred
        have hcon : forbiddenHeaders.contains k = true :=
          List.elem_eq_true_of_mem hk
        rw [hcon] at hpred
        exact Bool.noConfusion hpred
    rw [hfilter]
    apply objGet_none_of_no_key
    intro p hp
    have hk2 : k = jstr "host" ∨ k = jstr "content-length" ∨
        k = jstr "connection" ∨ k = jstr "accept-encoding" := by
      simpa [forbiddenHeaders] using hk
    have hp2 : p = (jstr "Content-Type", jstr "application/json") ∨
        p = (jstr "X-Webhook-Buffer-ID", eventIdStr) := by
      simpa using hp
    rcases hp2 with rfl | rfl <;>
      rcases hk2 with rfl | rfl | rfl | rfl <;> rfl
  · intro eventIdStr stored k v hk hget
    unfold outboundHeaders
    rw [objGet_append]
    have hfilter : objGet (stored.filter
        (fun p => !(forbiddenHeaders.contains p.1))) k
        = objGet stored k := by
      apply objGet_filter
      intro p hpk
      have hpk2 : p.1 = k := eq_of_beq hpk
      have hcf : forbiddenHeaders.contains k = false := by
        cases hc : forbiddenHeaders.contains k with
        | false => rfl
        | true => exact absurd (List.mem_of_elem_eq_true hc) hk
      show (!(forbiddenHeaders.contains p.1)) = true
      rw [hpk2, hcf]
      rfl
    rw [hfilter, hget]

/-- C9 witness: with the stripping revision, stored headers holding
`host` and `x-custom` forward `x-custom` unchanged while `host` is
absent from the outbound object. -/
theorem c9_stripped_witness :
    objGet (outboundHeaders (jstr "e1")
        [(jstr "host", jstr "internal.example"),
         (jstr "x-custom", jstr "keep")]) (jstr "host") = none ∧
    objGet (outboundHeaders (jstr "e1")
        [(jstr "host", jstr "internal.example"),
         (jstr "x-custom", jstr "keep")]) (jstr "x-custom")
      = some (jstr "keep") :=
  ⟨c9_forbidden_headers_stripped.1 (jstr "e1")
      [(jstr "host", jstr "internal.example"),
       (jstr "x-custom", jstr "keep")] (jstr "host") (by decide),
   c9_forbidden_headers_stripped.2 (jstr "e1")
      [(jstr "host", jstr "internal.example"),
       (jstr "x-custom", jstr "keep")] (jstr "x-custom") (jstr "keep")
      (by decide) (by decide)⟩

/-! ## Retention archiver

From `CleanupService.runCleanup`: group the COMPLETED events older than
the cutoff by endpoint with their counts (computed before any deletion),
then for each group, inside one transaction, increment the endpoint's
`archivedSuccessCount` by the count and delete exactly the rows matching
the same condition. -/

/-- Rows the sweep targets: `status: 'COMPLETED', receivedAt: { lt:
cutoffDate }`. -/
def archivable (cutoff : Int) (ev : WebhookEvent) : Bool :=
  ev.status == EventStatus.COMPLETED && decide (ev.receivedAt < cutoff)

/-- Distinct keys in first-occurrence order, as `groupBy` produces. -/
def dedupKeys : List Nat → List Nat
  | [] => []
  | x :: xs => x :: (dedupKeys xs).filter (fun y => y != x)

/-- The `groupBy(['endpointId'], where: ..., _count: id)` query: one
`(endpointId, count)` pair per endpoint owning archivable rows. -/
def cleanupGroups (events : List WebhookEvent) (cutoff : Int) :
    List (Nat × Nat) :=
  let arch := events.filter (archivable cutoff)
  (dedupKeys (arch.map (fun ev => ev.endpointId))).map
    (fun i => (i, (arch.filter (fun ev => ev.endpointId == i)).length))

/-- One per-endpoint transaction of the sweep: increment the counter by
the group's count and delete the endpoint's archivable rows. -/
def applyArchiveGroup (cutoff : Int) (s : Store) (g : Nat × Nat) : Store :=
  { s with
    endpoints := s.endpoints.map (fun (ep : Endpoint) =>
      if ep.id == g.1 then
        { ep with archivedSuccessCount := ep.archivedSuccessCount + g.2 }
      else ep),
    events := s.events.filter (fun ev =>
      !(ev.endpointId == g.1 && archivable cutoff ev)) }

/-- `CleanupService.runCleanup`: compute the groups from the pre-sweep
events, then run the per-endpoint transactions in order. -/
def runCleanup (s : Store) (cutoff : Int) : Store :=
  (cleanupGroups s.events cutoff).foldl (applyArchiveGroup cutoff) s

/-- Sum of the counts that the groups with a given key contribute. -/
def sumForKey (gs : List (Nat × Nat)) (i : Nat) : Nat :=
  (gs.map (fun g => if i == g.1 then g.2 else 0)).sum

theorem foldl_archive_endpoints (cutoff : Int) (gs : List (Nat × Nat)) :
    ∀ s : Store,
    (gs.foldl (applyArchiveGroup cutoff) s).endpoints
      = s.endpoints.map (fun ep =>
          { ep with archivedSuccessCount :=
              ep.archivedSuccessCount + sumForKey gs ep.id }) := by
  induction gs with
  | nil =>
    intro s
    simp [sumForKey]
  | cons g gs ih =>
    intro s
    rw [List.foldl_cons, ih]
    rw [show (applyArchiveGroup cutoff s g).endpoints
        = s.endpoints.map (fun ep =>
            if ep.id == g.1 then
              { ep with archivedSuccessCount :=
                  ep.archivedSuccessCount + g.2 }
            else ep) from rfl]
    rw [List.map_map]
    apply List.map_congr_left
    intro ep _
    simp only [Function.comp]
    by_cases h : (ep.id == g.1) = true
    · rw [if_pos h]
      simp [sumForKey, h, Nat.add_assoc]
      rw [if_pos (eq_of_beq h)]
    · rw [if_neg h]
      have hf : (ep.id == g.1) = false := Bool.eq_false_iff.mpr h
      simp [sumForKey, hf]
      intro e
      exact absurd (beq_iff_eq.mpr e) h

theorem foldl_archive_events (cutoff : Int) (gs : List (Nat × Nat)) :
    ∀ s : Store,
    (gs.foldl (applyArchiveGroup cutoff) s).events
      = s.events.filter (fun ev =>
          !(gs.any (fun g => ev.endpointId == g.1)
            && archivable cutoff ev)) := by
  induction gs with
  | nil =>
    intro s
    simp
  | cons g gs ih =>
    intro s
    rw [List.foldl_cons, ih]
    rw [show (applyArchiveGroup cutoff s g).events
        = s.events.filter (fun ev =>
            !(ev.endpointId == g.1 && archivable cutoff ev)) from rfl]
    rw [List.filter_filter]
    apply List.filter_congr
    intro ev _
    cases harch : archivable cutoff ev <;>
      cases h1 : (ev.endpointId == g.1) <;>
        simp [harch, h1]

theorem dedupKeys_mem (l : List Nat) (a : Nat) :
    a ∈ dedupKeys l ↔ a ∈ l := by
  induction l with
  | nil => simp [dedupKeys]
  | cons x xs ih =>
    simp only [dedupKeys, List.mem_cons, List.mem_filter]
    constructor
    · rintro (rfl | ⟨h1, _⟩)
      · exact Or.inl rfl
      · exact Or.inr (ih.mp h1)
    · rintro (rfl | h)
      · exact Or.inl rfl
      · by_cases hx : a = x
        · exact Or.inl hx
        · exact Or.inr ⟨ih.mpr h, bne_iff_ne.mpr hx⟩

theorem dedupKeys_nodup (l : List Nat) : (dedupKeys l).Nodup := by
  induction l with
  | nil => exact List.nodup_nil
  | cons x xs ih =>
    rw [dedupKeys, List.nodup_cons]
    refine ⟨?_, List.Nodup.filter _ ih⟩
    intro hmem
    have h2 := (List.mem_filter.mp hmem).2
    simp at h2

theorem sumForKey_map (count : Nat → Nat) (i : Nat) :
    ∀ ids : List Nat, ids.Nodup →
    sumForKey (ids.map (fun j => (j, count j))) i
      = if i ∈ ids then count i else 0 := by
  intro ids
  induction ids with
  | nil => intro _; simp [sumForKey]
  | cons j js ih =>
    intro hnd
    rw [List.nodup_cons] at hnd
    obtain ⟨hj, hnd2⟩ := hnd
    simp only [List.map_cons, sumForKey, List.sum_cons] at ih ⊢
    by_cases h : i = j
    · subst h
      rw [ih hnd2, if_neg hj]
      simp
    · have hb : (i == j) = false := beq_eq_false_iff_ne.mpr h
      rw [ih hnd2]
      simp [hb, h]

theorem count_zero_of_not_mem (arch : List WebhookEvent) (i : Nat)
    (h : i ∉ arch.map (fun ev => ev.endpointId)) :
    (arch.filter (fun ev => ev.endpointId == i)).length = 0 := by
  rw [List.length_eq_zero, List.filter_eq_nil_iff]
  intro ev hev hcon
  exact h (List.mem_map.mpr ⟨ev, hev, eq_of_beq hcon⟩)

/-- The sweep's effect on the endpoints table: every destination's
archived-success counter grows by exactly its number of archivable rows,
and nothing else about it changes. -/
theorem runCleanup_endpoints (s : Store) (cutoff : Int) :
    (runCleanup s cutoff).endpoints
      = s.endpoints.map (fun ep =>
          { ep with archivedSuccessCount := ep.archivedSuccessCount +
              (s.events.filter (fun ev =>
                 ev.endpointId == ep.id
                   && archivable cutoff ev)).length }) := by
  unfold runCleanup
  rw [foldl_archive_endpoints]
  apply List.map_congr_left
  intro ep _
  have hcount : sumForKey (cleanupGroups s.events cutoff) ep.id
      = (s.events.filter (fun ev =>
          ev.endpointId == ep.id && archivable cutoff ev)).length := by
    unfold cleanupGroups
    rw [sumForKey_map _ _ _ (dedupKeys_nodup _)]
    rw [← List.filter_filter]
    by_cases hmem : ep.id ∈ dedupKeys ((s.events.filter
        (archivable cutoff)).map (fun ev => ev.endpointId))
    · rw [if_pos hmem]
    · rw [if_neg hmem]
      have h2 : ep.id ∉ (s.events.filter (archivable cutoff)).map
          (fun ev => ev.endpointId) :=
        fun hx => hmem ((dedupKeys_mem _ _).mpr hx)
      exact (count_zero_of_not_mem _ _ h2).symm
  rw [hcount]

/-- The sweep's effect on the events table: exactly the archivable rows
(COMPLETED and older than the cutoff) are deleted, nothing else. -/
theorem runCleanup_events (s : Store) (cutoff : Int) :
    (runCleanup s cutoff).events
      = s.events.filter (fun ev => !(archivable cutoff ev)) := by
  unfold runCleanup
  rw [foldl_archive_events]
  apply List.filter_congr
  intro ev hev
  cases harch : archivable cutoff ev
  · simp [harch]
  · have hmem : ev.endpointId ∈ dedupKeys ((s.events.filter
        (archivable cutoff)).map (fun e => e.endpointId)) := by
      rw [dedupKeys_mem]
      exact List.mem_map.mpr ⟨ev, List.mem_filter.mpr ⟨hev, harch⟩, rfl⟩
    have hany : (cleanupGroups s.events cutoff).any
        (fun g => ev.endpointId == g.1) = true := by
      unfold cleanupGroups
      rw [List.any_eq_true]
      refine ⟨(ev.endpointId, ((s.events.filter
        (archivable cutoff)).filter
          (fun e => e.endpointId == ev.endpointId)).length), ?_, ?_⟩
      · exact List.mem_map.mpr ⟨ev.endpointId, hmem, rfl⟩
      · simp
    simp [hany, harch]

theorem foldl_archive_queue (cutoff : Int) (gs : List (Nat × Nat)) :
    ∀ s : Store, (gs.foldl (applyArchiveGroup cutoff) s).queue = s.queue := by
  induction gs with
  | nil => intro s; rfl
  | cons g gs ih =>
    intro s
    rw [List.foldl_cons, ih]
    rfl

/-- The destination of the retention example, with 5 already-archived
successes. -/
def archEndpoint : Endpoint :=
  { id := 9, isActive := true, isPaused := false, provider := jstr "generic",
    secret := none, rateLimit := 5, archivedSuccessCount := 5 }

/-- A COMPLETED event received before the cutoff. -/
def oldCompleted (n : Nat) : WebhookEvent :=
  { id := n, endpointId := 9, status := EventStatus.COMPLETED,
    receivedAt := -1, payload := jstr "o", headers := [] }

/-- A COMPLETED event received after the cutoff. -/
def newCompleted (n : Nat) : WebhookEvent :=
  { id := n, endpointId := 9, status := EventStatus.COMPLETED,
    receivedAt := 1, payload := jstr "n", headers := [] }

/-- An old FAILED event, which a sweep must never archive. -/
def oldFailed : WebhookEvent :=
  { id := 50, endpointId := 9, status := EventStatus.FAILED,
    receivedAt := -1, payload := jstr "f", headers := [] }

/-- The retention example store: 10 old COMPLETED rows, 3 newer COMPLETED
rows and one old FAILED row for one destination. -/
def archStore : Store :=
  { endpoints := [archEndpoint],
    events := [oldCompleted 30, oldCompleted 31, oldCompleted 32,
               oldCompleted 33, oldCompleted 34, oldCompleted 35,
               oldCompleted 36, oldCompleted 37, oldCompleted 38,
               oldCompleted 39, newCompleted 40, newCompleted 41,
               newCompleted 42, oldFailed],
    queue := [] }

/-- C8: one sweep deletes exactly the COMPLETED rows older than the
cutoff, increments every destination's archived-success counter by
exactly its number of such rows (pairing increment and delete per
destination), leaves FAILED, PENDING and newer-COMPLETED rows in place
and the queue untouched; on the example store the counter goes from 5 to
15 and exactly 3 COMPLETED rows remain. -/
theorem c8_retention_archiver :
    (∀ (s : Store) (cutoff : Int),
      (runCleanup s cutoff).events
        = s.events.filter (fun ev => !(archivable cutoff ev)) ∧
      (runCleanup s cutoff).endpoints
        = s.endpoints.map (fun ep =>
            { ep with archivedSuccessCount := ep.archivedSuccessCount +
                (s.events.filter (fun ev =>
                   ev.endpointId == ep.id
                     && archivable cutoff ev)).length }) ∧
      (∀ ev ∈ s.events,
        (ev.status = EventStatus.FAILED ∨ ev.status = EventStatus.PENDING ∨
          (ev.status = EventStatus.COMPLETED ∧ ¬ ev.receivedAt < cutoff)) →
        ev ∈ (runCleanup s cutoff).events) ∧
      (runCleanup s cutoff).queue = s.queue) ∧
    (runCleanup archStore 0).endpoints.map
      (fun ep => ep.archivedSuccessCount) = [15] ∧
    ((runCleanup archStore 0).events.filter
      (fun ev => ev.status == EventStatus.COMPLETED)).length = 3 := by
  refine ⟨?_, by decide, by decide⟩
  intro s cutoff
  refine ⟨runCleanup_events s cutoff, runCleanup_endpoints s cutoff, ?_,
    foldl_archive_queue cutoff _ s⟩
  intro ev hev hdisj
  rw [runCleanup_events]
  refine List.mem_filter.mpr ⟨hev, ?_⟩
  have harch : archivable cutoff ev = false := by
    unfold archivable
    rcases hdisj with h | h | ⟨h1, h2⟩
    · simp [h]
    · simp [h]
    · simp [h1, h2]
  simp [harch]

/-- C8 witness: on the example store the old FAILED row survives the
sweep, and each destination's counter grows by its archivable-row count. -/
theorem c8_archiver_witness :
    oldFailed ∈ (runCleanup archStore 0).events ∧
    (runCleanup archStore 0).endpoints
      = archStore.endpoints.map (fun ep =>
          { ep with archivedSuccessCount := ep.archivedSuccessCount +
              (archStore.events.filter (fun ev =>
                 ev.endpointId == ep.id && archivable 0 ev)).length }) :=
  ⟨(c8_retention_archiver.1 archStore 0).2.2.1 oldFailed (by decide)
      (Or.inl rfl),
   (c8_retention_archiver.1 archStore 0).2.1⟩
